import Mathlib

/-!
Shallow embedding of the AmarGolpo server (src/index.js, with the duplicate
variants src/unnamed/part_000 and src/unnamed/part_001).

The server is an Express/MongoDB CRUD layer; the logic embedded here is the
rating aggregation of `PUT /books/:id` (ratingUpdate branch and generic `$set`
branch), the like toggle of `PUT /quotes/:id/like`, the validation of
`POST /quotes`, and the not-found / missing-field error paths.  Document
stores are modelled as functions from an opaque numeric identifier to an
optional document; `updateOne` with `$set` becomes a pointwise overwrite at
the addressed identifier.  Books are projected onto the fields the rating
logic reads and writes (`ratings` and the derived `rating` string); JavaScript
numbers are modelled as rationals, and a field that may be absent from a JSON
body is an `Option`.
-/

/-- One entry of a book's `ratings` array: the `{userId, rating}` pair pushed
by the ratingUpdate branch of `PUT /books/:id` (src/index.js line 133). -/
structure RatingEntry where
  userId : String
  rating : ℚ
deriving DecidableEq, Repr

/-- The locate / overwrite-in-place / append step of the ratingUpdate branch
(src/index.js lines 129-134): `findIndex(r => r.userId === userId)` finds the
first entry with the incoming userId; if found its `rating` field is
overwritten in place, otherwise `{userId, rating}` is pushed at the end.
The recursion walks the array exactly as `findIndex` does: the first matching
entry is rewritten and the tail kept, and a non-matching head is kept in
front of the recursive result. -/
def upsertRating : List RatingEntry → String → ℚ → List RatingEntry
  | [], u, r => [⟨u, r⟩]
  | e :: es, u, r =>
    if e.userId = u then { e with rating := r } :: es
    else e :: upsertRating es u r

/-- `currentRatings.reduce((sum, r) => sum + r.rating, 0)`
(src/index.js line 137). -/
def sumRatings (l : List RatingEntry) : ℚ :=
  l.foldl (fun s r => s + r.rating) 0

/-- `avgRating = reduce(...) / currentRatings.length` (src/index.js
lines 136-137).  The JavaScript division is unguarded; in this model division
by zero yields 0 where JavaScript would yield NaN, and the safety claim shows
the code never reaches the zero-length case. -/
def avgRating (l : List RatingEntry) : ℚ :=
  sumRatings l / l.length

/-- The integer of tenths chosen by `x.toFixed(1)` for a nonnegative `x`:
the integer `n` minimising `|n / 10 - x|`, ties resolved to the larger `n`. -/
def ratTenths (q : ℚ) : ℤ :=
  Rat.floor (q * 10 + 1 / 2)

/-- Decimal rendering of a nonnegative rational to one fractional digit,
as `Number.prototype.toFixed(1)` does for nonnegative arguments. -/
def formatFixed1Nonneg (q : ℚ) : String :=
  let n := (ratTenths q).toNat
  toString (n / 10) ++ "." ++ toString (n % 10)

/-- `avgRating.toFixed(1)` (src/index.js line 144): the mean rendered as a
decimal string with one fractional digit; a negative argument is rendered as
the sign followed by the rendering of its absolute value. -/
def formatFixed1 (q : ℚ) : String :=
  if q < 0 then "-" ++ formatFixed1Nonneg (-q) else formatFixed1Nonneg q

/-- A book document, projected onto the two fields the `PUT /books/:id`
handler reads and writes: the `ratings` array (an absent or non-array field is
read as `[]`, src/index.js line 127) and the derived `rating` display string
(`none` when the field is absent). -/
structure Book where
  ratings : List RatingEntry
  rating : Option String
deriving DecidableEq, Repr

/-- A generic `PUT /books/:id` body (the non-ratingUpdate form), projected
onto the invariant-relevant fields: `none` means the field is not part of the
`$set` payload and keeps its stored value. -/
structure BookPatch where
  ratings : Option (List RatingEntry)
  rating : Option String
deriving DecidableEq, Repr

/-- The two request-body forms of `PUT /books/:id`: a
`{ratingUpdate: {userId, rating}}` body, or arbitrary partial fields applied
by `$set` (src/index.js lines 125 and 156-159). -/
inductive PutBookBody where
  | ratingUpdate (userId : String) (rating : ℚ)
  | patch (p : BookPatch)
deriving DecidableEq, Repr

/-- The response of `PUT /books/:id` projected onto status code and the
`avgRating` number included on the ratingUpdate success path. -/
structure PutBookResult where
  status : ℕ
  avgRating : Option ℚ
deriving DecidableEq, Repr

/-- A books collection: each opaque identifier maps to at most one document. -/
abbrev BookStore := ℕ → Option Book

/-- MongoDB `$set` with a generic body (src/index.js lines 156-159): fields
present in the payload overwrite the stored ones, the rest are kept. -/
def applyPatch (b : Book) (p : BookPatch) : Book :=
  { ratings := p.ratings.getD b.ratings,
    rating := match p.rating with
      | some s => some s
      | none => b.rating }

/-- The `PUT /books/:id` handler (src/index.js lines 115-166): `findOne` by
id, 404 when absent; on a ratingUpdate body, upsert the incoming rating,
recompute the mean, and `$set` both the new array and the mean formatted to
one decimal, answering 200 with the raw mean; on any other body, `$set` the
given fields, answering 200. -/
def putBook (s : BookStore) (id : ℕ) (body : PutBookBody) :
    BookStore × PutBookResult :=
  match s id with
  | none => (s, ⟨404, none⟩)
  | some book =>
    match body with
    | .ratingUpdate u r =>
      ((fun i => if i = id then
          some ⟨upsertRating book.ratings u r,
                some (formatFixed1 (avgRating (upsertRating book.ratings u r)))⟩
        else s i),
       ⟨200, some (avgRating (upsertRating book.ratings u r))⟩)
    | .patch p =>
      ((fun i => if i = id then some (applyPatch book p) else s i),
       ⟨200, none⟩)

/-- The store invariant claimed for books: whenever the `ratings` array is
non-empty, the stored derived `rating` field is exactly the arithmetic mean of
the entries rendered to one decimal place; an empty array puts no constraint
on the field. -/
def BookInv (b : Book) : Prop :=
  b.ratings ≠ [] → b.rating = some (formatFixed1 (avgRating b.ratings))

/-- A quote document (src/index.js lines 209-215): the three caller-supplied
fields, the `likes` array of userIds, and the server-assigned creation
instant (opaque, modelled as a natural number). -/
structure Quote where
  text : String
  author : String
  category : String
  likes : List String
  createdAt : ℕ
deriving DecidableEq, Repr

/-- A quotes collection: each opaque identifier maps to at most one document. -/
abbrev QuoteStore := ℕ → Option Quote

/-- The like toggle of `PUT /quotes/:id/like` (src/index.js lines 235-242):
if the requesting userId is in the likes array it is filtered out (unlike),
otherwise it is pushed at the end (like). -/
def toggleLike (likes : List String) (u : String) : List String :=
  if u ∈ likes then likes.filter (fun x => x ≠ u) else likes ++ [u]

/-- The response of `PUT /quotes/:id/like` projected onto status code and the
`likesCount` number included on success. -/
structure LikeResult where
  status : ℕ
  likesCount : Option ℕ
deriving DecidableEq, Repr

/-- The `PUT /quotes/:id/like` handler (src/index.js lines 226-254): a falsy
`userId` (absent, or the empty string) is rejected with 400 before the store
is consulted; an unknown id answers 404; otherwise the likes array is toggled,
written back with `$set`, and the new length returned as `likesCount`. -/
def likeQuote (s : QuoteStore) (id : ℕ) (userId : Option String) :
    QuoteStore × LikeResult :=
  match userId with
  | none => (s, ⟨400, none⟩)
  | some u =>
    if u = "" then (s, ⟨400, none⟩)
    else
      match s id with
      | none => (s, ⟨404, none⟩)
      | some q =>
        ((fun i => if i = id then some { q with likes := toggleLike q.likes u }
          else s i),
         ⟨200, some (toggleLike q.likes u).length⟩)

/-- The `POST /quotes` handler (src/index.js lines 201-223): a falsy `text`,
`author` or `category` (absent, or the empty string) is rejected with 400 and
nothing is inserted; otherwise a document with the three supplied fields, an
empty `likes` array and the server-assigned creation instant is inserted
under a store-assigned identifier, answering 200. -/
def postQuote (s : QuoteStore) (newId : ℕ) (text author category : Option String)
    (now : ℕ) : QuoteStore × ℕ :=
  match text, author, category with
  | some t, some a, some c =>
    if t = "" ∨ a = "" ∨ c = "" then (s, 400)
    else ((fun i => if i = newId then some ⟨t, a, c, [], now⟩ else s i), 200)
  | _, _, _ => (s, 400)

/-- The `DELETE /quotes/:id` handler (src/index.js lines 257-267):
unconditional removal by identifier. -/
def deleteQuote (s : QuoteStore) (id : ℕ) : QuoteStore :=
  fun i => if i = id then none else s i

/-- The quote stores reachable through the API: the empty collection, and the
results of `POST /quotes`, `PUT /quotes/:id/like` and `DELETE /quotes/:id`. -/
inductive QuoteReachable : QuoteStore → Prop where
  | empty : QuoteReachable (fun _ => none)
  | post (s : QuoteStore) (id : ℕ) (t a c : Option String) (now : ℕ) :
      QuoteReachable s → QuoteReachable (postQuote s id t a c now).1
  | like (s : QuoteStore) (id : ℕ) (u : Option String) :
      QuoteReachable s → QuoteReachable (likeQuote s id u).1
  | del (s : QuoteStore) (id : ℕ) :
      QuoteReachable s → QuoteReachable (deleteQuote s id)

/-! ## Helper lemmas on the rating upsert -/

lemma upsert_append_of_notMem (l : List RatingEntry) (u : String) (r : ℚ)
    (h : ∀ e ∈ l, e.userId ≠ u) :
    upsertRating l u r = l ++ [⟨u, r⟩] := by
  induction l with
  | nil => rfl
  | cons e es ih =>
    simp only [upsertRating]
    rw [if_neg (h e (List.mem_cons_self e es))]
    rw [ih fun x hx => h x (List.mem_cons_of_mem e hx)]
    rfl

lemma upsert_inplace (l1 l2 : List RatingEntry) (u : String) (r0 r : ℚ)
    (h : ∀ e ∈ l1, e.userId ≠ u) :
    upsertRating (l1 ++ ⟨u, r0⟩ :: l2) u r = l1 ++ ⟨u, r⟩ :: l2 := by
  induction l1 with
  | nil => simp [upsertRating]
  | cons e es ih =>
    simp only [List.cons_append, upsertRating, List.append_eq]
    rw [if_neg (h e (List.mem_cons_self e es))]
    rw [ih fun x hx => h x (List.mem_cons_of_mem e hx)]

lemma upsert_upsert (l : List RatingEntry) (u : String) (r1 r2 : ℚ) :
    upsertRating (upsertRating l u r1) u r2 = upsertRating l u r2 := by
  induction l with
  | nil => simp [upsertRating]
  | cons e es ih =>
    by_cases he : e.userId = u
    · simp [upsertRating, he]
    · simp [upsertRating, he, ih]

lemma foldl_upsert_last (l : List RatingEntry) (u : String) (rs : List ℚ) (r : ℚ) :
    List.foldl (fun acc q => upsertRating acc u q) l (rs ++ [r])
      = upsertRating l u r := by
  induction rs generalizing l with
  | nil => simp [List.foldl]
  | cons q qs ih =>
    simp only [List.cons_append, List.foldl_cons]
    rw [ih (upsertRating l u q)]
    exact upsert_upsert l u q r

lemma upsert_length_pos (l : List RatingEntry) (u : String) (r : ℚ) :
    0 < (upsertRating l u r).length := by
  cases l with
  | nil => simp [upsertRating]
  | cons e es =>
    simp only [upsertRating]
    split <;> simp

/-! ## Claim theorems on the rating upsert -/

/-- C1: rating aggregation never accumulates duplicate entries for a user.
If the first occurrence of the incoming userId splits the ratings sequence as
`l1 ++ [⟨u, r0⟩] ++ l2`, the entry is overwritten in place with every
position preserved; if no entry carries the userId, a new entry is appended;
and consequently, for any sequence of earlier submissions from the same
userId, only the most recent rating contributes to the mean. -/
theorem rating_upsert_overwrite_or_append_last_wins :
    (∀ (l1 l2 : List RatingEntry) (u : String) (r0 r : ℚ),
      (∀ e ∈ l1, e.userId ≠ u) →
      upsertRating (l1 ++ ⟨u, r0⟩ :: l2) u r = l1 ++ ⟨u, r⟩ :: l2)
    ∧ (∀ (l : List RatingEntry) (u : String) (r : ℚ),
      (∀ e ∈ l, e.userId ≠ u) → upsertRating l u r = l ++ [⟨u, r⟩])
    ∧ (∀ (l : List RatingEntry) (u : String) (rs : List ℚ) (r : ℚ),
      avgRating (List.foldl (fun acc q => upsertRating acc u q) l (rs ++ [r]))
        = avgRating (upsertRating l u r)) := by
  refine ⟨upsert_inplace, upsert_append_of_notMem, ?_⟩
  intro l u rs r
  rw [foldl_upsert_last]

/-- Witness for C1 at concrete inputs: overwriting `u1` in the middle of a
two-entry sequence, appending a fresh `u3`, and a three-submission history
from `u1` whose mean only reflects the last submission. -/
theorem rating_upsert_overwrite_or_append_last_wins_witness :
    upsertRating [⟨"u2", 2⟩, ⟨"u1", 4⟩] "u1" 5 = [⟨"u2", 2⟩, ⟨"u1", 5⟩]
    ∧ upsertRating [⟨"u2", 2⟩] "u3" 1 = [⟨"u2", 2⟩, ⟨"u3", 1⟩]
    ∧ avgRating (List.foldl (fun acc q => upsertRating acc "u1" q)
        [⟨"u2", 2⟩] ([3, 4] ++ [5]))
      = avgRating (upsertRating [⟨"u2", 2⟩] "u1" 5) := by
  refine ⟨?_, ?_, ?_⟩
  · exact rating_upsert_overwrite_or_append_last_wins.1 [⟨"u2", 2⟩] [] "u1" 4 5
      (by intro e he; simp at he; rw [he]; decide)
  · exact rating_upsert_overwrite_or_append_last_wins.2.1 [⟨"u2", 2⟩] "u3" 1
      (by intro e he; simp at he; rw [he]; decide)
  · exact rating_upsert_overwrite_or_append_last_wins.2.2 [⟨"u2", 2⟩] "u1" [3, 4] 5

/-- C10: the division computing the mean never divides by zero — after the
locate/overwrite-or-append step the updated ratings sequence always has at
least one entry, so its length, the divisor of the unguarded division, is
nonzero for every input sequence and every incoming rating. -/
theorem upsert_nonempty_division_safe :
    ∀ (l : List RatingEntry) (u : String) (r : ℚ),
      (upsertRating l u r).length ≠ 0
      ∧ ((upsertRating l u r).length : ℚ) ≠ 0
      ∧ avgRating (upsertRating l u r)
          = sumRatings (upsertRating l u r) / ((upsertRating l u r).length : ℚ) := by
  intro l u r
  have h := upsert_length_pos l u r
  refine ⟨Nat.pos_iff_ne_zero.mp h, ?_, rfl⟩
  exact_mod_cast Nat.pos_iff_ne_zero.mp h

/-- C5: starting from an empty ratings sequence, submitting `(u1, 4)` then
`(u2, 2)` yields a mean of 3, and a further `(u1, 5)` yields a mean of 7/2
(that is, 3.5). -/
theorem mean_rating_example :
    avgRating (upsertRating (upsertRating [] "u1" 4) "u2" 2) = 3
    ∧ avgRating (upsertRating (upsertRating (upsertRating [] "u1" 4) "u2" 2)
        "u1" 5) = 7 / 2 := by
  constructor
  · have h : upsertRating (upsertRating [] "u1" 4) "u2" 2
        = [⟨"u1", 4⟩, ⟨"u2", 2⟩] := by
      simp [upsertRating]
    rw [h]
    norm_num [avgRating, sumRatings]
  · have h : upsertRating (upsertRating (upsertRating [] "u1" 4) "u2" 2) "u1" 5
        = [⟨"u1", 5⟩, ⟨"u2", 2⟩] := by
      simp [upsertRating]
    rw [h]
    norm_num [avgRating, sumRatings]

/-! ## Helper lemmas on the like toggle -/

lemma filter_ne_of_notMem (l : List String) (u : String) (hu : u ∉ l) :
    l.filter (fun x => x ≠ u) = l := by
  apply List.filter_eq_self.mpr
  intro a ha
  simp only [ne_eq, decide_eq_true_eq]
  intro h
  exact hu (h ▸ ha)

lemma length_filter_ne_add_one (l : List String) (u : String)
    (hnd : l.Nodup) (hu : u ∈ l) :
    (l.filter (fun x => x ≠ u)).length + 1 = l.length := by
  induction l with
  | nil => exact absurd hu (List.not_mem_nil u)
  | cons a l ih =>
    rw [List.nodup_cons] at hnd
    rcases List.mem_cons.mp hu with h | h
    · subst h
      rw [List.filter_cons_of_neg (by simp)]
      rw [filter_ne_of_notMem l u hnd.1]
      simp
    · have hau : a ≠ u := fun hau => hnd.1 (hau ▸ h)
      rw [List.filter_cons_of_pos (by simp [hau])]
      simp only [List.length_cons]
      rw [ih hnd.2 h]

lemma mem_toggleLike_iff (l : List String) (u x : String) :
    x ∈ toggleLike l u ↔ (x ∈ l ∧ x ≠ u) ∨ (x = u ∧ u ∉ l) := by
  unfold toggleLike
  by_cases hu : u ∈ l
  · rw [if_pos hu]
    simp only [List.mem_filter, ne_eq, decide_eq_true_eq]
    constructor
    · rintro ⟨hx, hne⟩; exact Or.inl ⟨hx, hne⟩
    · rintro (⟨hx, hne⟩ | ⟨rfl, habs⟩)
      · exact ⟨hx, hne⟩
      · exact absurd hu habs
  · rw [if_neg hu]
    simp only [List.mem_append, List.mem_singleton]
    constructor
    · rintro (hx | rfl)
      · by_cases hxu : x = u
        · exact Or.inr ⟨hxu, hu⟩
        · exact Or.inl ⟨hx, hxu⟩
      · exact Or.inr ⟨rfl, hu⟩
    · rintro (⟨hx, _⟩ | ⟨rfl, _⟩)
      · exact Or.inl hx
      · exact Or.inr rfl

lemma toggleLike_nodup (l : List String) (u : String) (h : l.Nodup) :
    (toggleLike l u).Nodup := by
  unfold toggleLike
  split
  · exact h.filter _
  · rename_i hu
    rw [List.nodup_append]
    refine ⟨h, List.nodup_singleton u, ?_⟩
    intro x hx hxu
    rw [List.mem_singleton] at hxu
    exact hu (hxu ▸ hx)

/-! ## Claim theorems on the like toggle -/

/-- C2: the like toggle on an existing quote removes the requesting userId
from the like set when it is a member and appends it otherwise, and the
handler's response carries status 200 together with the cardinality of the
resulting like set, which is also the set written back to the store. -/
theorem like_toggle_membership_and_count :
    ∀ (s : QuoteStore) (id : ℕ) (u : String) (q : Quote),
      s id = some q → u ≠ "" →
      likeQuote s id (some u)
        = ((fun i => if i = id then some { q with likes := toggleLike q.likes u }
            else s i),
           ⟨200, some (toggleLike q.likes u).length⟩)
      ∧ (u ∈ q.likes → u ∉ toggleLike q.likes u)
      ∧ (u ∉ q.likes → toggleLike q.likes u = q.likes ++ [u]) := by
  intro s id u q hq hu
  refine ⟨?_, ?_, ?_⟩
  · simp only [likeQuote, hq, if_neg hu]
  · intro hmem habs
    rcases (mem_toggleLike_iff q.likes u u).mp habs with ⟨_, hne⟩ | ⟨_, hnotin⟩
    · exact hne rfl
    · exact hnotin hmem
  · intro hnotin
    unfold toggleLike
    rw [if_neg hnotin]

/-- Witness for C2: a store holding one quote liked by `a`, toggled by the
not-yet-present `b`. -/
theorem like_toggle_membership_and_count_witness :
    likeQuote (fun i => if i = 0 then some ⟨"t", "a", "c", ["a"], 1⟩ else none)
        0 (some "b")
      = ((fun i => if i = 0 then
            some { (⟨"t", "a", "c", ["a"], 1⟩ : Quote) with
                    likes := toggleLike ["a"] "b" }
          else (fun i => if i = 0 then some ⟨"t", "a", "c", ["a"], 1⟩ else none) i),
         ⟨200, some (toggleLike ["a"] "b").length⟩)
    ∧ ("b" ∈ (["a"] : List String) → "b" ∉ toggleLike ["a"] "b")
    ∧ ("b" ∉ (["a"] : List String) → toggleLike ["a"] "b" = ["a"] ++ ["b"]) :=
  like_toggle_membership_and_count
    (fun i => if i = 0 then some ⟨"t", "a", "c", ["a"], 1⟩ else none)
    0 "b" ⟨"t", "a", "c", ["a"], 1⟩ rfl (by decide)

/-- C4: toggling the like set twice with the same userId, with no intervening
mutation, returns the like set to its original cardinality and its original
membership (the like set of a reachable quote has no duplicates, which the
hypothesis records). -/
theorem like_toggle_involutive (l : List String) (u : String) (h : l.Nodup) :
    (toggleLike (toggleLike l u) u).length = l.length
    ∧ ∀ x, x ∈ toggleLike (toggleLike l u) u ↔ x ∈ l := by
  constructor
  · by_cases hu : u ∈ l
    · have h1 : toggleLike l u = l.filter (fun x => x ≠ u) := if_pos hu
      have hnotin : u ∉ toggleLike l u := by
        rw [h1]
        simp
      have h2 : toggleLike (toggleLike l u) u = toggleLike l u ++ [u] :=
        if_neg hnotin
      rw [h2, List.length_append, h1, List.length_singleton]
      exact length_filter_ne_add_one l u h hu
    · have h1 : toggleLike l u = l ++ [u] := if_neg hu
      have hin : u ∈ toggleLike l u := by
        rw [h1]
        simp
      have h2 : toggleLike (toggleLike l u) u
          = (toggleLike l u).filter (fun x => x ≠ u) := if_pos hin
      rw [h2, h1, List.filter_append, filter_ne_of_notMem l u hu]
      simp
  · intro x
    simp only [mem_toggleLike_iff, ne_eq]
    by_cases hxu : x = u
    · subst hxu
      by_cases hu : x ∈ l <;> simp [hu]
    · simp [hxu]

/-- Witness for C4: double toggle by a member (`a`) of a duplicate-free
two-element like set, checked on cardinality and on membership of `b`. -/
theorem like_toggle_involutive_witness :
    (toggleLike (toggleLike ["a", "b"] "a") "a").length
        = (["a", "b"] : List String).length
    ∧ ∀ x, x ∈ toggleLike (toggleLike ["a", "b"] "a") "a" ↔ x ∈ ["a", "b"] :=
  like_toggle_involutive ["a", "b"] "a" (by decide)

/-- C7: a `PUT /quotes/:id/like` request whose body has no userId is answered
400 and leaves the store — hence every quote's like set — unchanged. -/
theorem likeQuote_missing_userId_400 :
    ∀ (s : QuoteStore) (id : ℕ), likeQuote s id none = (s, ⟨400, none⟩) := by
  intro s id
  rfl

/-! ## Claim theorems on the book update error path -/

/-- C6: `PUT /books/:id` answers 404 and leaves the store unchanged whenever
no book with the given identifier exists, for every request-body form. -/
theorem putBook_notFound_404 (s : BookStore) (id : ℕ) (body : PutBookBody)
    (h : s id = none) : putBook s id body = (s, ⟨404, none⟩) := by
  simp only [putBook, h]

/-- Witness for C6 on the empty store, once for the ratingUpdate body form
and once for the generic partial-fields form. -/
theorem putBook_notFound_404_witness :
    putBook (fun _ => none) 5 (.ratingUpdate "u" 3)
      = ((fun _ => none), ⟨404, none⟩)
    ∧ putBook (fun _ => none) 5 (.patch ⟨some [⟨"u", 1⟩], some "1.0"⟩)
      = ((fun _ => none), ⟨404, none⟩) :=
  ⟨putBook_notFound_404 (fun _ => none) 5 (.ratingUpdate "u" 3) rfl,
   putBook_notFound_404 (fun _ => none) 5 (.patch ⟨some [⟨"u", 1⟩], some "1.0"⟩) rfl⟩

/-! ## The book rating invariant -/

lemma avg_single_four : avgRating [⟨"u", 4⟩] = 4 := by
  norm_num [avgRating, sumRatings]

lemma ratTenths_four : ratTenths 4 = 40 := by
  have h : ratTenths 4 = ⌊(4 : ℚ) * 10 + 1 / 2⌋ := rfl
  rw [h, Int.floor_eq_iff]
  norm_num

lemma formatFixed1_four : formatFixed1 4 = "4.0" := by
  unfold formatFixed1 formatFixed1Nonneg
  rw [if_neg (by norm_num), ratTenths_four]
  rfl

/-- C3 counterexample: a book satisfying the rating/mean invariant, hit by a
generic partial update (`$set {rating: "9.9"}`) that `PUT /books/:id` accepts
and that leaves the stored `rating` unequal to the formatted mean of the
untouched `ratings`; so the claim that every mutating operation preserves the
invariant is false on the generic-update branch. -/
theorem book_rating_invariant_counterexample :
    BookInv ⟨[⟨"u", 4⟩], some "4.0"⟩
    ∧ (putBook (fun i => if i = 0 then some ⟨[⟨"u", 4⟩], some "4.0"⟩ else none)
        0 (.patch ⟨none, some "9.9"⟩)).1 0
      = some ⟨[⟨"u", 4⟩], some "9.9"⟩
    ∧ ¬ BookInv ⟨[⟨"u", 4⟩], some "9.9"⟩ := by
  refine ⟨?_, rfl, ?_⟩
  · intro _
    rw [show (Book.mk [⟨"u", 4⟩] (some "4.0")).rating = some "4.0" from rfl]
    rw [show (Book.mk [⟨"u", 4⟩] (some "4.0")).ratings = [⟨"u", 4⟩] from rfl]
    rw [avg_single_four, formatFixed1_four]
  · intro h
    have h2 := h (by simp)
    rw [show (Book.mk [⟨"u", 4⟩] (some "9.9")).ratings = [⟨"u", 4⟩] from rfl,
      avg_single_four, formatFixed1_four] at h2
    simp at h2

/-- C3 amended: the invariant "whenever `ratings` is non-empty the stored
`rating` equals the mean formatted to one decimal place" is established and
preserved by the ratingUpdate branch of `PUT /books/:id` for every book in the
store; the generic partial-update branch and book creation are caller
controlled and can break it (see the counterexample). -/
theorem ratingUpdate_preserves_book_rating_invariant
    (s : BookStore) (id : ℕ) (b : Book) (u : String) (r : ℚ)
    (hfound : s id = some b) (hInv : ∀ i bi, s i = some bi → BookInv bi) :
    ∀ i bi, (putBook s id (.ratingUpdate u r)).1 i = some bi → BookInv bi := by
  intro i bi hbi
  simp only [putBook, hfound] at hbi
  by_cases hi : i = id
  · simp only [if_pos hi] at hbi
    rw [← Option.some_inj.mp hbi]
    intro _
    rfl
  · simp only [if_neg hi] at hbi
    exact hInv i bi hbi

/-- Witness for the amended C3: a singleton store whose one book has no
ratings receives a first rating; the updated document satisfies the
invariant. -/
theorem ratingUpdate_preserves_book_rating_invariant_witness :
    BookInv ⟨upsertRating [] "u9" 3,
             some (formatFixed1 (avgRating (upsertRating [] "u9" 3)))⟩ :=
  ratingUpdate_preserves_book_rating_invariant
    (fun i => if i = 0 then some ⟨[], none⟩ else none) 0 ⟨[], none⟩ "u9" 3 rfl
    (by
      intro i bi h
      by_cases hi : i = 0
      · simp only [if_pos hi] at h
        rw [← Option.some_inj.mp h]
        intro habs
        exact absurd rfl habs
      · simp only [if_neg hi] at h
        cases h)
    0 ⟨upsertRating [] "u9" 3,
       some (formatFixed1 (avgRating (upsertRating [] "u9" 3)))⟩ rfl

/-! ## POST /quotes validation -/

/-- C8 counterexample: a body whose three fields are all present but whose
`text` is the empty string — a falsy value in the handler's presence check —
is rejected with 400 and nothing is inserted, so "all three present implies
insertion with the supplied fields" is false as stated. -/
theorem postQuote_all_present_counterexample :
    (postQuote (fun _ => none) 0 (some "") (some "a") (some "c") 7).1 0 = none
    ∧ (postQuote (fun _ => none) 0 (some "") (some "a") (some "c") 7).2 = 400 :=
  ⟨rfl, rfl⟩

/-- C8 amended: `POST /quotes` with any of the text, author, or category
fields absent yields a 400 response and performs no insertion; when all three
are present and non-empty (the handler tests JavaScript truthiness, so a
present empty string is also rejected), the inserted quote carries exactly
the caller-supplied text, author and category, an empty likes set, and the
server-assigned creation instant. -/
theorem postQuote_validation :
    (∀ (s : QuoteStore) (id : ℕ) (a c : Option String) (now : ℕ),
      postQuote s id none a c now = (s, 400))
    ∧ (∀ (s : QuoteStore) (id : ℕ) (t c : Option String) (now : ℕ),
      postQuote s id t none c now = (s, 400))
    ∧ (∀ (s : QuoteStore) (id : ℕ) (t a : Option String) (now : ℕ),
      postQuote s id t a none now = (s, 400))
    ∧ (∀ (s : QuoteStore) (id : ℕ) (t a c : String) (now : ℕ),
      t ≠ "" → a ≠ "" → c ≠ "" →
      postQuote s id (some t) (some a) (some c) now
        = ((fun i => if i = id then some ⟨t, a, c, [], now⟩ else s i), 200)) := by
  refine ⟨?_, ?_, ?_, ?_⟩
  · intro s id a c now
    cases a <;> cases c <;> rfl
  · intro s id t c now
    cases t <;> cases c <;> rfl
  · intro s id t a now
    cases t <;> cases a <;> rfl
  · intro s id t a c now ht ha hc
    have hcond : ¬ (t = "" ∨ a = "" ∨ c = "") := by
      simp [ht, ha, hc]
    simp only [postQuote, if_neg hcond]

/-- Witness for the amended C8: a rejected body missing its author, and an
accepted body with three non-empty fields inserted verbatim. -/
theorem postQuote_validation_witness :
    postQuote (fun _ => none) 0 (some "hello") none (some "life") 7
      = ((fun _ => none), 400)
    ∧ postQuote (fun _ => none) 3 (some "hello") (some "ann") (some "life") 9
      = ((fun i => if i = 3 then some ⟨"hello", "ann", "life", [], 9⟩
          else (fun _ => none) i), 200) :=
  ⟨postQuote_validation.2.1 (fun _ => none) 0 (some "hello") (some "life") 7,
   postQuote_validation.2.2.2 (fun _ => none) 3 "hello" "ann" "life" 9
     (by decide) (by decide) (by decide)⟩

/-! ## The quotes no-duplicate-likes invariant -/

lemma postQuote_lookup (s : QuoteStore) (id : ℕ) (t a c : Option String)
    (now i : ℕ) (q : Quote) (h : (postQuote s id t a c now).1 i = some q) :
    q.likes = [] ∨ s i = some q := by
  cases t with
  | none => exact Or.inr h
  | some tv =>
    cases a with
    | none => exact Or.inr h
    | some av =>
      cases c with
      | none => exact Or.inr h
      | some cv =>
        by_cases hf : tv = "" ∨ av = "" ∨ cv = ""
        · simp only [postQuote, if_pos hf] at h
          exact Or.inr h
        · simp only [postQuote, if_neg hf] at h
          by_cases hi : i = id
          · simp only [if_pos hi] at h
            rw [← Option.some_inj.mp h]
            exact Or.inl rfl
          · simp only [if_neg hi] at h
            exact Or.inr h

lemma likeQuote_lookup (s : QuoteStore) (id : ℕ) (u : Option String)
    (i : ℕ) (q : Quote) (h : (likeQuote s id u).1 i = some q) :
    s i = some q
    ∨ ∃ (q0 : Quote) (uv : String), s id = some q0
        ∧ q = { q0 with likes := toggleLike q0.likes uv } := by
  cases u with
  | none => exact Or.inl h
  | some uv =>
    by_cases hu : uv = ""
    · simp only [likeQuote, if_pos hu] at h
      exact Or.inl h
    · simp only [likeQuote, if_neg hu] at h
      cases hsid : s id with
      | none =>
        rw [hsid] at h
        exact Or.inl h
      | some q0 =>
        rw [hsid] at h
        simp only at h
        by_cases hi : i = id
        · simp only [if_pos hi] at h
          exact Or.inr ⟨q0, uv, rfl, (Option.some_inj.mp h).symm⟩
        · simp only [if_neg hi] at h
          exact Or.inl h

lemma deleteQuote_lookup (s : QuoteStore) (id i : ℕ) (q : Quote)
    (h : deleteQuote s id i = some q) : s i = some q := by
  by_cases hi : i = id
  · simp only [deleteQuote, if_pos hi] at h
    cases h
  · simp only [deleteQuote, if_neg hi] at h
    exact h

/-- C9: every quote document in a store reachable through the API — created
by `POST /quotes`, mutated only by the like toggle, possibly deleted —
carries a likes sequence without duplicates; every operation preserves the
invariant. -/
theorem reachable_quotes_likes_nodup (s : QuoteStore) (h : QuoteReachable s) :
    ∀ (i : ℕ) (q : Quote), s i = some q → q.likes.Nodup := by
  induction h with
  | empty =>
    intro i q h
    cases h
  | post s0 id t a c now _ ih =>
    intro i q h
    rcases postQuote_lookup s0 id t a c now i q h with h1 | h1
    · rw [h1]
      exact List.nodup_nil
    · exact ih i q h1
  | like s0 id u _ ih =>
    intro i q h
    rcases likeQuote_lookup s0 id u i q h with h1 | ⟨q0, uv, hq0, rfl⟩
    · exact ih i q h1
    · exact toggleLike_nodup q0.likes uv (ih id q0 hq0)
  | del s0 id _ ih =>
    intro i q h
    exact ih i q (deleteQuote_lookup s0 id i q h)

/-- Witness for C9: the store obtained by posting one quote and having user
`u` like it is reachable, and the stored likes sequence has no duplicates. -/
theorem reachable_quotes_likes_nodup_witness :
    (Quote.mk "t" "a" "c" ["u"] 7).likes.Nodup :=
  reachable_quotes_likes_nodup _
    (QuoteReachable.like _ 0 (some "u")
      (QuoteReachable.post _ 0 (some "t") (some "a") (some "c") 7
        QuoteReachable.empty))
    0 (Quote.mk "t" "a" "c" ["u"] 7) rfl
